import Mathlib

/-!
# FF-webkitNotifications: the legacy notification shim

A shallow embedding of `FF-webkitNotifications.user.js`.

The script installs three functions on `window.webkitNotifications`
(`checkPermission`, `requestPermission`, `createNotification`) and the two
methods `show` and `cancel` of the object that `createNotification` returns.

The JavaScript heap and the browser are made explicit:

* caller functions are opaque; a call to one is recorded in a trace;
* the closures the script itself creates are defunctionalised (`Closure`);
* objects returned by `createNotification` live in `World.objects` and are
  referred to by their index, as the closures of the script refer to
  `notificationObject`;
* the browser (`window.Notification`, `setTimeout`) is the environment: its
  entry points record what they receive, and what it does later (running a
  timer, completing a permission request, signalling an event on a
  notification) are separate steps of `Action`.
-/

namespace WebkitNotifications

/-! ## Constants (lines 22-24) -/

/-- Line 22. -/
def PERMISSION_ALLOWED : Nat := 0

/-- Line 23. -/
def PERMISSION_NOT_ALLOWED : Nat := 1

/-- Line 24. -/
def PERMISSION_DENIED : Nat := 2

/-! ## checkPermission (lines 36-50) -/

/-- Lines 36-50: the `switch` over `window.Notification.permission`, which is
passed as the argument. A `throw` is `Except.error` carrying the thrown string. -/
def checkPermission (permission : String) : Except String Nat :=
  if permission = "default" then
    .ok PERMISSION_NOT_ALLOWED
  else if permission = "denied" then
    .ok PERMISSION_DENIED
  else if permission = "granted" then
    .ok PERMISSION_ALLOWED
  else
    .error "window.Notification.permission has an invalid value."

/-! ## The heap and the browser -/

/-- A function supplied by the caller. It is opaque: only its identity is
known, and a call to it is recorded in the trace. -/
abbrev Callback := Nat

/-- Index of a browser notification (an instance of `window.Notification`)
in `World.notifications`. -/
abbrev HandleId := Nat

/-- Index of an object returned by `createNotification` in `World.objects`. -/
abbrev ObjectId := Nat

/-- The four events the browser signals on a notification. -/
inductive Signal where
  | click
  | show
  | error
  | close
  deriving DecidableEq, Repr

/-- The function values the script creates, with what each one captures. -/
inductive Closure where
  /-- Lines 62-67: the function handed to `setTimeout`; captures `callback`. -/
  | timerBody (callback : Option Callback)
  /-- Lines 63-66: the function handed to `window.Notification.requestPermission`;
  captures `callback`. -/
  | permissionDone (callback : Option Callback)
  /-- Lines 98-101: captures `notificationObject`. -/
  | forwardClick (o : ObjectId)
  /-- Lines 102-105: captures `notificationObject`. -/
  | forwardShow (o : ObjectId)
  /-- Lines 106-109: captures `notificationObject`. -/
  | forwardError (o : ObjectId)
  /-- Lines 110-113: captures `notificationObject`. -/
  | forwardClose (o : ObjectId)
  deriving DecidableEq, Repr

/-- What the caller and the browser can observe, in the order it happened. -/
inductive Event where
  /-- A caller function was called with the given arguments. -/
  | called (f : Callback) (args : List String)
  /-- The browser entry point `window.Notification.requestPermission` was called. -/
  | hostRequestPermission
  /-- The browser method `close()` was called on a notification. -/
  | hostClose (h : HandleId)
  deriving DecidableEq, Repr

/-- The object literal of lines 87-90. -/
structure Options where
  body : String
  icon : String
  deriving DecidableEq, Repr

/-- An instance of `window.Notification`: what the constructor received, and
the four handler fields the script assigns in lines 98-113. -/
structure HostNotification where
  title : String
  options : Options
  onclick : Option Closure
  onshow : Option Closure
  onerror : Option Closure
  onclose : Option Closure
  deriving DecidableEq, Repr

/-- The object `notificationObject` of line 83. `_title` and `_options` are set
in lines 85-90, `_notification` in line 93 (unset until then), and the four
handler fields are the caller's to assign (unset until the caller does).
The methods `show` and `cancel` are the functions `showNotification` and
`cancel` below. -/
structure NotificationObject where
  _title : String
  _options : Options
  _notification : Option HandleId
  onclick : Option Callback
  ondisplay : Option Callback
  onerror : Option Callback
  onclose : Option Callback
  deriving DecidableEq, Repr

/-- The page and the browser at one moment. -/
structure World where
  /-- Value of `window.Notification.permission`. -/
  permission : String
  /-- Functions handed to `setTimeout(_, 0)` that have not run yet, oldest first. -/
  timers : List Closure
  /-- Functions handed to `window.Notification.requestPermission` that the
  browser has not called yet, oldest first. -/
  pending : List Closure
  /-- Every `window.Notification` constructed so far, in order of construction. -/
  notifications : List HostNotification
  /-- Every object created by `createNotification` so far. -/
  objects : List NotificationObject
  /-- Everything observable that has happened so far, oldest first. -/
  trace : List Event
  deriving DecidableEq, Repr

/-- A page on which nothing has happened yet. -/
def World.init (permission : String) : World :=
  { permission := permission, timers := [], pending := [], notifications := [],
    objects := [], trace := [] }

/-- A call `f()` of a caller function: no arguments are passed. -/
def callNoArgs (f : Callback) (w : World) : World :=
  { w with trace := w.trace ++ [Event.called f []] }

/-- The statement `if (f) f();` of lines 64-65, 99-100, 103-104, 107-108 and
111-112: nothing happens when the value is unset. -/
def callIfSet (f : Option Callback) (w : World) : World :=
  match f with
  | some g => callNoArgs g w
  | none => w

/-- The caller's handler field of an object that belongs to a signal
(`click` to `onclick`, `show` to `ondisplay`, `error` to `onerror`,
`close` to `onclose`), as the four forwarders of lines 98-113 read it. -/
def NotificationObject.handler (o : NotificationObject) : Signal → Option Callback
  | .click => o.onclick
  | .show => o.ondisplay
  | .error => o.onerror
  | .close => o.onclose

/-- The handler field of a browser notification that belongs to a signal. -/
def HostNotification.handler (n : HostNotification) : Signal → Option Closure
  | .click => n.onclick
  | .show => n.onshow
  | .error => n.onerror
  | .close => n.onclose

/-- An assignment `notificationObject.onclick = f` (or `ondisplay`, `onerror`,
`onclose`) by the caller. -/
def NotificationObject.setHandler (o : NotificationObject) (s : Signal)
    (f : Option Callback) : NotificationObject :=
  match s with
  | .click => { o with onclick := f }
  | .show => { o with ondisplay := f }
  | .error => { o with onerror := f }
  | .close => { o with onclose := f }

/-- The error of a reference to an object or notification that was never
created. It cannot arise in the script, whose closures hold their object. -/
def dangling : String := "reference to an object that does not exist"

/-- Runs the body of one of the script's closures. -/
def runClosure (c : Closure) (w : World) : Except String World :=
  match c with
  | .timerBody callback =>
    -- line 63: window.Notification.requestPermission(function() ...)
    .ok { w with pending := w.pending ++ [Closure.permissionDone callback],
                 trace := w.trace ++ [Event.hostRequestPermission] }
  | .permissionDone callback =>
    -- lines 64-65
    .ok (callIfSet callback w)
  | .forwardClick o =>
    match w.objects[o]? with
    | some obj => .ok (callIfSet obj.onclick w)
    | none => .error dangling
  | .forwardShow o =>
    match w.objects[o]? with
    | some obj => .ok (callIfSet obj.ondisplay w)
    | none => .error dangling
  | .forwardError o =>
    match w.objects[o]? with
    | some obj => .ok (callIfSet obj.onerror w)
    | none => .error dangling
  | .forwardClose o =>
    match w.objects[o]? with
    | some obj => .ok (callIfSet obj.onclose w)
    | none => .error dangling

/-! ## requestPermission (lines 59-68) -/

/-- Lines 59-68: the only statement is `setTimeout(function() ..., 0)`. -/
def requestPermission (callback : Option Callback) (w : World) : World :=
  { w with timers := w.timers ++ [Closure.timerBody callback] }

/-! ## createNotification (lines 79-122) -/

/-- Lines 79-122, without the two methods: allocates `notificationObject`,
fills `_title` and `_options`, and returns the object. -/
def createNotification (iconUrl title body : String) (w : World) : ObjectId × World :=
  (w.objects.length,
   { w with objects := w.objects ++
      [{ _title := title, _options := { body := body, icon := iconUrl },
         _notification := none, onclick := none, ondisplay := none,
         onerror := none, onclose := none }] })

/-- Lines 92-114, the method `show` of the object `o`. Line 93 constructs a
`window.Notification` from the fields `_title` and `_options` and stores it
in `_notification`; lines 98-113 assign its four handlers. -/
def showNotification (o : ObjectId) (w : World) : Except String World :=
  match w.objects[o]? with
  | none => .error dangling
  | some obj =>
    let h : HandleId := w.notifications.length
    .ok { w with
      notifications := w.notifications ++
        [{ title := obj._title, options := obj._options,
           onclick := some (Closure.forwardClick o),
           onshow := some (Closure.forwardShow o),
           onerror := some (Closure.forwardError o),
           onclose := some (Closure.forwardClose o) }],
      objects := w.objects.set o { obj with _notification := some h } }

/-- Lines 116-119, the method `cancel` of the object `o`. -/
def cancel (o : ObjectId) (w : World) : Except String World :=
  match w.objects[o]? with
  | none => .error dangling
  | some obj =>
    match obj._notification with
    | some h => .ok { w with trace := w.trace ++ [Event.hostClose h] }
    | none => .ok w

/-! ## Steps of the caller and of the browser -/

/-- The caller assigns one of the four handler fields of the object `o`. -/
def setHandler (o : ObjectId) (s : Signal) (f : Option Callback) (w : World) :
    Except String World :=
  match w.objects[o]? with
  | none => .error dangling
  | some obj => .ok { w with objects := w.objects.set o (obj.setHandler s f) }

/-- The event loop runs the oldest timer, if there is one. -/
def tick (w : World) : Except String World :=
  match w.timers with
  | [] => .ok w
  | c :: rest => runClosure c { w with timers := rest }

/-- The browser completes the oldest permission request, if there is one, by
calling the function it was given. -/
def resolve (w : World) : Except String World :=
  match w.pending with
  | [] => .ok w
  | c :: rest => runClosure c { w with pending := rest }

/-- The browser signals an event on the notification `h`: it calls the
function stored in the handler field of that event, if one is stored. -/
def fire (h : HandleId) (s : Signal) (w : World) : Except String World :=
  match w.notifications[h]? with
  | none => .error dangling
  | some n =>
    match n.handler s with
    | some c => runClosure c w
    | none => .ok w

/-- Everything that can happen on the page. -/
inductive Action where
  | requestPermission (callback : Option Callback)
  | createNotification (iconUrl title body : String)
  | setHandler (o : ObjectId) (s : Signal) (f : Option Callback)
  | showNotification (o : ObjectId)
  | cancel (o : ObjectId)
  | tick
  | resolve
  | fire (h : HandleId) (s : Signal)
  deriving DecidableEq, Repr

/-- One step of the page. -/
def step (a : Action) (w : World) : Except String World :=
  match a with
  | .requestPermission callback => .ok (requestPermission callback w)
  | .createNotification iconUrl title body => .ok (createNotification iconUrl title body w).2
  | .setHandler o s f => setHandler o s f w
  | .showNotification o => showNotification o w
  | .cancel o => cancel o w
  | .tick => tick w
  | .resolve => resolve w
  | .fire h s => fire h s w

/-- A sequence of steps, stopping at the first exception. -/
def run (as : List Action) (w : World) : Except String World :=
  match as with
  | [] => .ok w
  | a :: rest =>
    match step a w with
    | .ok w1 => run rest w1
    | .error e => .error e

/-! ## Observations -/

/-- How many times the caller function `f` has been called. -/
def timesCalled (f : Callback) (w : World) : Nat :=
  (w.trace.filter (fun e => match e with | .called g _ => g == f | _ => false)).length

/-- How many times `window.Notification.requestPermission` has been called. -/
def hostRequests (w : World) : Nat :=
  w.trace.count Event.hostRequestPermission

/-- How many times `close()` has been called on the notification `h`. -/
def closeRequests (h : HandleId) (w : World) : Nat :=
  w.trace.count (Event.hostClose h)

/-- The value of `_notification` of the object `o`. -/
def liveHandle (o : ObjectId) (w : World) : Option HandleId :=
  match w.objects[o]? with
  | some obj => obj._notification
  | none => none

/-- The trace of the statement `if (f) f();`. -/
def calls (f : Option Callback) : List Event :=
  match f with
  | some g => [Event.called g []]
  | none => []

/-- The function that lines 98-113 assign to the handler field of a signal. -/
def forwarder (s : Signal) (o : ObjectId) : Closure :=
  match s with
  | .click => Closure.forwardClick o
  | .show => Closure.forwardShow o
  | .error => Closure.forwardError o
  | .close => Closure.forwardClose o

/-- The browser notification that `show()` constructs for the object `obj`
with index `o`. -/
def realized (o : ObjectId) (obj : NotificationObject) : HostNotification :=
  { title := obj._title, options := obj._options,
    onclick := some (Closure.forwardClick o), onshow := some (Closure.forwardShow o),
    onerror := some (Closure.forwardError o), onclose := some (Closure.forwardClose o) }

/-- The caller assigns handler fields of the object `o`, one after the other. -/
def assignments (o : ObjectId) (l : List (Signal × Option Callback)) : List Action :=
  l.map (fun p => Action.setHandler o p.1 p.2)

/-- The object after a list of handler assignments. -/
def NotificationObject.assigned (obj : NotificationObject) :
    List (Signal × Option Callback) → NotificationObject
  | [] => obj
  | p :: rest => (obj.setHandler p.1 p.2).assigned rest

/-- The value that the handler field of `s` holds after a list of assignments:
the last value assigned to that field, or the initial value if none was. -/
def lastAssigned (s : Signal) (initial : Option Callback) :
    List (Signal × Option Callback) → Option Callback
  | [] => initial
  | p :: rest => lastAssigned s (if p.1 = s then p.2 else initial) rest

/-- The trace of the browser completing a list of permission requests of the
script, oldest first: each completion runs `if (callback) callback();`. -/
def completions : List (Option Callback) → List Event
  | [] => []
  | c :: rest => calls c ++ completions rest

/-- The part of an object that only the script writes. -/
def NotificationObject.core (obj : NotificationObject) : String × Options × Option HandleId :=
  (obj._title, obj._options, obj._notification)

/-! ## checkPermission -/

/-- C1: `checkPermission()` returns 1 (`PERMISSION_NOT_ALLOWED`) when the host
permission is "default", 2 (`PERMISSION_DENIED`) when it is "denied" and
0 (`PERMISSION_ALLOWED`) when it is "granted". -/
theorem checkPermission_mapping :
    checkPermission "default" = .ok 1 ∧ PERMISSION_NOT_ALLOWED = 1 ∧
    checkPermission "denied" = .ok 2 ∧ PERMISSION_DENIED = 2 ∧
    checkPermission "granted" = .ok 0 ∧ PERMISSION_ALLOWED = 0 :=
  ⟨rfl, rfl, rfl, rfl, rfl, rfl⟩

/-- C2: `checkPermission()` throws exactly when the host permission is none of
"default", "denied", "granted", and returns a value exactly when it is one of
them; "invalid", the empty string and "Granted" make it throw. -/
theorem checkPermission_throws_iff (p : String) :
    ((∃ e, checkPermission p = .error e) ↔
      (p ≠ "default" ∧ p ≠ "denied" ∧ p ≠ "granted")) ∧
    ((∃ n, checkPermission p = .ok n) ↔
      (p = "default" ∨ p = "denied" ∨ p = "granted")) ∧
    checkPermission "invalid" =
      .error "window.Notification.permission has an invalid value." ∧
    checkPermission "" =
      .error "window.Notification.permission has an invalid value." ∧
    checkPermission "Granted" =
      .error "window.Notification.permission has an invalid value." := by
  refine ⟨?_, ?_, rfl, rfl, rfl⟩
  · unfold checkPermission
    split_ifs with h1 h2 h3 <;> simp_all
  · unfold checkPermission
    split_ifs with h1 h2 h3 <;> simp_all

/-! ## requestPermission -/

theorem callIfSet_eq (f : Option Callback) (w : World) :
    callIfSet f w = { w with trace := w.trace ++ calls f } := by
  cases f
  · simp [callIfSet, calls]
  · rfl

/-- Turns of the event loop on a page whose timers are timers of the script:
each turn hands one completion function to the host, oldest timer first, and
a turn with no timer left changes nothing. -/
theorem run_ticks (k : Nat) (cs : List (Option Callback)) (w : World)
    (ht : w.timers = cs.map Closure.timerBody) :
    run (List.replicate k Action.tick) w = .ok { w with
      timers := (cs.drop k).map Closure.timerBody,
      pending := w.pending ++ (cs.take k).map Closure.permissionDone,
      trace := w.trace ++ List.replicate (min k cs.length) Event.hostRequestPermission } := by
  induction k generalizing cs w with
  | zero => simp [run, ← ht]
  | succ k ih =>
    cases cs with
    | nil =>
      have ht0 : w.timers = [] := by simpa using ht
      simp only [List.replicate_succ, run, step, tick, ht0]
      rw [ih [] w (by simpa using ht0)]
      simp
    | cons c rest =>
      simp only [List.map_cons] at ht
      simp only [List.replicate_succ, run, step, tick, ht, runClosure]
      rw [ih rest _ rfl]
      simp [Nat.succ_min_succ, List.replicate_succ]

/-- Completions by the host on a page whose pending requests are requests of
the script: each completion runs `if (callback) callback();` of the oldest
request, and a completion step with no request left changes nothing. -/
theorem run_resolves (j : Nat) (cs : List (Option Callback)) (w : World)
    (hp : w.pending = cs.map Closure.permissionDone) :
    run (List.replicate j Action.resolve) w = .ok { w with
      pending := (cs.drop j).map Closure.permissionDone,
      trace := w.trace ++ completions (cs.take j) } := by
  induction j generalizing cs w with
  | zero => simp [run, ← hp, completions]
  | succ j ih =>
    cases cs with
    | nil =>
      have hp0 : w.pending = [] := by simpa using hp
      simp only [List.replicate_succ, run, step, resolve, hp0]
      rw [ih [] w (by simpa using hp0)]
      simp
    | cons c rest =>
      simp only [List.map_cons] at hp
      simp only [List.replicate_succ, run, step, resolve, hp, runClosure, callIfSet_eq]
      rw [ih rest _ rfl]
      simp [completions]

theorem timesCalled_hostRequests (f : Callback) (w : World) (m : Nat) :
    timesCalled f { w with trace := w.trace ++ List.replicate m Event.hostRequestPermission }
      = timesCalled f w := by
  induction m with
  | zero => simp [timesCalled]
  | succ m ih =>
    simp only [timesCalled, List.filter_append, List.length_append] at ih ⊢
    simp only [List.replicate_succ, List.filter_cons]
    simp

theorem callIfSet_queues (f : Option Callback) (w : World) :
    (callIfSet f w).timers = w.timers ∧ (callIfSet f w).pending = w.pending := by
  cases f <;> exact ⟨rfl, rfl⟩

/-- A closure of the script leaves the timers alone and adds at most one
completion function of the script to the host's pending requests. -/
theorem runClosure_queues (c : Closure) (w w1 : World) (h : runClosure c w = .ok w1) :
    w1.timers = w.timers ∧
    (w1.pending = w.pending ∨
      ∃ c0, w1.pending = w.pending ++ [Closure.permissionDone c0]) := by
  cases c <;> simp only [runClosure] at h
  case timerBody cb => cases h; exact ⟨rfl, Or.inr ⟨cb, rfl⟩⟩
  case permissionDone cb =>
    cases h; exact ⟨(callIfSet_queues _ _).1, Or.inl (callIfSet_queues _ _).2⟩
  all_goals
    split at h
    · cases h; exact ⟨(callIfSet_queues _ _).1, Or.inl (callIfSet_queues _ _).2⟩
    · cases h

/-- Every step keeps the shape of the two queues: the timers are timers of the
script and the host's pending requests are completion functions of the script. -/
theorem step_queues (a : Action) (w w1 : World) (hs : step a w = .ok w1)
    (hq : (∃ ts : List (Option Callback), w.timers = ts.map Closure.timerBody) ∧
      ∃ ps : List (Option Callback), w.pending = ps.map Closure.permissionDone) :
    (∃ ts : List (Option Callback), w1.timers = ts.map Closure.timerBody) ∧
      ∃ ps : List (Option Callback), w1.pending = ps.map Closure.permissionDone := by
  obtain ⟨⟨ts, ht⟩, ⟨ps, hp⟩⟩ := hq
  have closure_case : ∀ (c : Closure) (v : World), runClosure c v = .ok w1 →
      (∃ ts1 : List (Option Callback), v.timers = ts1.map Closure.timerBody) →
      (∃ ps1 : List (Option Callback), v.pending = ps1.map Closure.permissionDone) →
      (∃ ts : List (Option Callback), w1.timers = ts.map Closure.timerBody) ∧
        ∃ ps : List (Option Callback), w1.pending = ps.map Closure.permissionDone := by
    intro c v hc hvt hvp
    obtain ⟨ts1, ht1⟩ := hvt
    obtain ⟨ps1, hp1⟩ := hvp
    obtain ⟨e1, e2⟩ := runClosure_queues c v w1 hc
    refine ⟨⟨ts1, by rw [e1, ht1]⟩, ?_⟩
    rcases e2 with e2 | ⟨c0, e2⟩
    · exact ⟨ps1, by rw [e2, hp1]⟩
    · exact ⟨ps1 ++ [c0], by rw [e2, hp1]; simp⟩
  cases a <;> simp only [step] at hs
  case requestPermission cb =>
    cases hs
    exact ⟨⟨ts ++ [cb], by simp [requestPermission, ht]⟩, ⟨ps, hp⟩⟩
  case createNotification i t b => cases hs; exact ⟨⟨ts, ht⟩, ⟨ps, hp⟩⟩
  case setHandler o2 s f =>
    unfold setHandler at hs
    split at hs
    · cases hs
    · cases hs; exact ⟨⟨ts, ht⟩, ⟨ps, hp⟩⟩
  case showNotification o2 =>
    unfold showNotification at hs
    split at hs
    · cases hs
    · cases hs; exact ⟨⟨ts, ht⟩, ⟨ps, hp⟩⟩
  case cancel o2 =>
    unfold cancel at hs
    split at hs
    · cases hs
    · split at hs <;> (cases hs; exact ⟨⟨ts, ht⟩, ⟨ps, hp⟩⟩)
  case tick =>
    unfold tick at hs
    split at hs
    · cases hs; exact ⟨⟨ts, ht⟩, ⟨ps, hp⟩⟩
    · rename_i c rest hw
      refine closure_case c _ hs ⟨ts.tail, ?_⟩ ⟨ps, hp⟩
      have hcons : c :: rest = ts.map Closure.timerBody := by rw [← hw, ht]
      cases ts with
      | nil => simp at hcons
      | cons t0 ts0 =>
        simp only [List.map_cons, List.cons.injEq] at hcons
        simpa using hcons.2
  case resolve =>
    unfold resolve at hs
    split at hs
    · cases hs; exact ⟨⟨ts, ht⟩, ⟨ps, hp⟩⟩
    · rename_i c rest hw
      refine closure_case c _ hs ⟨ts, ht⟩ ⟨ps.tail, ?_⟩
      have hcons : c :: rest = ps.map Closure.permissionDone := by rw [← hw, hp]
      cases ps with
      | nil => simp at hcons
      | cons p0 ps0 =>
        simp only [List.map_cons, List.cons.injEq] at hcons
        simpa using hcons.2
  case fire hd s =>
    unfold fire at hs
    split at hs
    · cases hs
    · split at hs
      · exact closure_case _ w hs ⟨ts, ht⟩ ⟨ps, hp⟩
      · cases hs; exact ⟨⟨ts, ht⟩, ⟨ps, hp⟩⟩

/-- On every page reached from a fresh one, the timers are timers of the
script and the host's pending requests are completion functions of the script. -/
theorem run_queues (as : List Action) (w w1 : World) (hs : run as w = .ok w1)
    (hq : (∃ ts : List (Option Callback), w.timers = ts.map Closure.timerBody) ∧
      ∃ ps : List (Option Callback), w.pending = ps.map Closure.permissionDone) :
    (∃ ts : List (Option Callback), w1.timers = ts.map Closure.timerBody) ∧
      ∃ ps : List (Option Callback), w1.pending = ps.map Closure.permissionDone := by
  induction as generalizing w with
  | nil => cases hs; exact hq
  | cons a rest ih =>
    simp only [run] at hs
    split at hs
    · rename_i w2 hstep
      exact ih w2 hs (step_queues a w w2 hstep hq)
    · cases hs

/-- C3: on every page, when `requestPermission(cb)` returns nothing has been
called: the only change is one more timer at the end of the timer queue; and
whenever that timer's function runs it only hands the completion function to
the host, and whenever the completion function runs it only calls `cb`, once
and with no arguments. With the event loop as an explicit queue, on a page
with earlier timers `ts` and earlier pending requests `ps` of the script:
any number of turns of the event loop call no caller function at all; once
the timer has run, the host holds the completion function behind those of
the earlier requests; completing requests calls exactly the callbacks of the
requests completed, in order; up to the completion of this request that is
the callbacks of the earlier requests only, its completion then calls `cb`
once with no arguments, and nothing is left to call it again. Every page
reached from a fresh one has queues of this shape. -/
theorem requestPermission_defers_callback (cb : Callback) (w : World) :
    requestPermission (some cb) w
      = { w with timers := w.timers ++ [Closure.timerBody (some cb)] } ∧
    (requestPermission (some cb) w).trace = w.trace ∧
    (requestPermission (some cb) w).pending = w.pending ∧
    (∀ f, timesCalled f (requestPermission (some cb) w) = timesCalled f w) ∧
    hostRequests (requestPermission (some cb) w) = hostRequests w ∧
    (∀ v : World, runClosure (Closure.timerBody (some cb)) v
      = .ok { v with pending := v.pending ++ [Closure.permissionDone (some cb)],
                     trace := v.trace ++ [Event.hostRequestPermission] }) ∧
    (∀ v : World, runClosure (Closure.permissionDone (some cb)) v
      = .ok { v with trace := v.trace ++ [Event.called cb []] }) ∧
    (∀ (p : String) (as : List Action), run as (World.init p) = .ok w →
      ∃ ts ps : List (Option Callback),
        w.timers = ts.map Closure.timerBody ∧ w.pending = ps.map Closure.permissionDone) ∧
    ∀ ts ps : List (Option Callback),
      w.timers = ts.map Closure.timerBody → w.pending = ps.map Closure.permissionDone →
      (∀ k, ∃ wk,
        run (List.replicate k Action.tick) (requestPermission (some cb) w) = .ok wk ∧
        wk.timers = ((ts ++ [some cb]).drop k).map Closure.timerBody ∧
        wk.pending = (ps ++ (ts ++ [some cb]).take k).map Closure.permissionDone ∧
        wk.trace = w.trace ++
          List.replicate (min k (ts.length + 1)) Event.hostRequestPermission ∧
        (∀ f, timesCalled f wk = timesCalled f w) ∧
        hostRequests wk = hostRequests w + min k (ts.length + 1)) ∧
      (∀ n j, ∃ w2 wj,
        run (List.replicate (ts.length + 1 + n) Action.tick)
          (requestPermission (some cb) w) = .ok w2 ∧
        w2.timers = [] ∧
        w2.pending = (ps ++ ts ++ [some cb]).map Closure.permissionDone ∧
        w2.trace = w.trace ++ List.replicate (ts.length + 1) Event.hostRequestPermission ∧
        run (List.replicate j Action.resolve) w2 = .ok wj ∧
        wj.pending = ((ps ++ ts ++ [some cb]).drop j).map Closure.permissionDone ∧
        wj.trace = w2.trace ++ completions ((ps ++ ts ++ [some cb]).take j)) ∧
      (∀ n, ∃ w2 w3 w4,
        run (List.replicate (ts.length + 1 + n) Action.tick)
          (requestPermission (some cb) w) = .ok w2 ∧
        run (List.replicate (ps ++ ts).length Action.resolve) w2 = .ok w3 ∧
        w3.pending = [Closure.permissionDone (some cb)] ∧
        w3.trace = w2.trace ++ completions (ps ++ ts) ∧
        resolve w3 = .ok w4 ∧
        w4.trace = w3.trace ++ [Event.called cb []] ∧
        w4.pending = [] ∧
        timesCalled cb w4 = timesCalled cb w3 + 1 ∧
        resolve w4 = .ok w4) := by
  refine ⟨rfl, rfl, rfl, fun _ => rfl, rfl, fun _ => rfl, fun _ => rfl, ?_, ?_⟩
  · intro p as hrun
    obtain ⟨⟨ts, ht⟩, ⟨ps, hp⟩⟩ :=
      run_queues as (World.init p) w hrun ⟨⟨[], rfl⟩, ⟨[], rfl⟩⟩
    exact ⟨ts, ps, ht, hp⟩
  intro ts ps ht hp
  have hq : (requestPermission (some cb) w).timers
      = (ts ++ [some cb]).map Closure.timerBody := by
    simp [requestPermission, ht]
  have hticks : ∀ n, run (List.replicate (ts.length + 1 + n) Action.tick)
      (requestPermission (some cb) w)
      = .ok { w with
          timers := [],
          pending := (ps ++ ts ++ [some cb]).map Closure.permissionDone,
          trace := w.trace ++ List.replicate (ts.length + 1) Event.hostRequestPermission } := by
    intro n
    rw [run_ticks _ _ _ hq]
    have h1 : (ts ++ [some cb]).drop (ts.length + 1 + n) = [] :=
      List.drop_eq_nil_of_le (by simp)
    have h2 : (ts ++ [some cb]).take (ts.length + 1 + n) = ts ++ [some cb] :=
      List.take_of_length_le (by simp)
    have h3 : min (ts.length + 1 + n) (ts ++ [some cb]).length = ts.length + 1 := by
      simp
    rw [h1, h2, h3]
    simp [requestPermission, hp]
  refine ⟨?_, ?_, ?_⟩
  · intro k
    refine ⟨_, run_ticks k _ _ hq, rfl, ?_, ?_, ?_, ?_⟩
    · simp [requestPermission, hp]
    · simp [requestPermission]
    · intro f
      exact timesCalled_hostRequests f _ _
    · simp [hostRequests, requestPermission, List.count_append]
  · intro n j
    refine ⟨_, _, hticks n, rfl, rfl, rfl, run_resolves j _ _ rfl, rfl, rfl⟩
  · intro n
    have hres := run_resolves (ps ++ ts).length (ps ++ ts ++ [some cb])
      { w with
          timers := [],
          pending := (ps ++ ts ++ [some cb]).map Closure.permissionDone,
          trace := w.trace ++ List.replicate (ts.length + 1) Event.hostRequestPermission } rfl
    have h1 : (ps ++ ts ++ [some cb]).drop (ps ++ ts).length = [some cb] :=
      List.drop_left _ _
    have h2 : (ps ++ ts ++ [some cb]).take (ps ++ ts).length = ps ++ ts :=
      List.take_left _ _
    rw [h1, h2] at hres
    refine ⟨_, _,
      { w with
          timers := [], pending := [],
          trace := w.trace ++ List.replicate (ts.length + 1) Event.hostRequestPermission
            ++ completions (ps ++ ts) ++ [Event.called cb []] },
      hticks n, hres, rfl, rfl, ?_, rfl, rfl, ?_, ?_⟩
    · simp only [resolve, List.map_cons, List.map_nil, runClosure, callIfSet_eq]
      rfl
    · simp only [timesCalled, List.filter_append, List.length_append]
      simp
    · simp [resolve]

/-- Witness for C3: a request with callback 5 on a page where an earlier
request with callback 4 is still waiting for its timer. -/
theorem requestPermission_defers_callback_witness :
    ∃ w2 w3 w4,
      run [Action.requestPermission (some 4), Action.requestPermission (some 5),
           Action.tick, Action.tick, Action.tick] (World.init "default") = .ok w2 ∧
      w2.trace = [Event.hostRequestPermission, Event.hostRequestPermission] ∧
      resolve w2 = .ok w3 ∧
      w3.trace = [Event.hostRequestPermission, Event.hostRequestPermission,
                  Event.called 4 []] ∧
      resolve w3 = .ok w4 ∧
      w4.trace = [Event.hostRequestPermission, Event.hostRequestPermission,
                  Event.called 4 [], Event.called 5 []] ∧
      resolve w4 = .ok w4 :=
  match (requestPermission_defers_callback 5
      (requestPermission (some 4) (World.init "default"))).2.2.2.2.2.2.2.2
      [some 4] [] rfl rfl with
  | ⟨_, _, h⟩ =>
    match h 1 with
    | ⟨w2, w3, w4, h1, h2, _, h4, h5, h6, _, _, h9⟩ =>
      ⟨w2, w3, w4, h1,
        by
          have e1 : w2 = _ := Except.ok.inj (h1.symm.trans rfl)
          subst e1
          rfl,
        by
          have e1 : w2 = _ := Except.ok.inj (h1.symm.trans rfl)
          subst e1
          exact h2,
        by
          have e1 : w2 = _ := Except.ok.inj (h1.symm.trans rfl)
          subst e1
          rw [h4]
          rfl,
        h5,
        by
          have e1 : w2 = _ := Except.ok.inj (h1.symm.trans rfl)
          subst e1
          rw [h6, h4]
          rfl,
        h9⟩

/-! ## Frame lemmas -/

theorem callIfSet_objects (f : Option Callback) (w : World) :
    (callIfSet f w).objects = w.objects := by
  cases f <;> rfl

theorem callIfSet_notifications (f : Option Callback) (w : World) :
    (callIfSet f w).notifications = w.notifications := by
  cases f <;> rfl

/-- A closure of the script changes no object and no browser notification. -/
theorem runClosure_frame (c : Closure) (w w1 : World) (h : runClosure c w = .ok w1) :
    w1.objects = w.objects ∧ w1.notifications = w.notifications := by
  cases c <;> simp only [runClosure] at h
  case timerBody cb => cases h; exact ⟨rfl, rfl⟩
  case permissionDone cb =>
    cases h; exact ⟨callIfSet_objects _ _, callIfSet_notifications _ _⟩
  all_goals
    split at h
    · cases h; exact ⟨callIfSet_objects _ _, callIfSet_notifications _ _⟩
    · cases h

theorem tick_frame (w w1 : World) (h : tick w = .ok w1) :
    w1.objects = w.objects ∧ w1.notifications = w.notifications := by
  unfold tick at h
  split at h
  · cases h; exact ⟨rfl, rfl⟩
  · have hf := runClosure_frame _ _ _ h
    exact hf

theorem resolve_frame (w w1 : World) (h : resolve w = .ok w1) :
    w1.objects = w.objects ∧ w1.notifications = w.notifications := by
  unfold resolve at h
  split at h
  · cases h; exact ⟨rfl, rfl⟩
  · have hf := runClosure_frame _ _ _ h
    exact hf

theorem fire_frame (hd : HandleId) (s : Signal) (w w1 : World) (h : fire hd s w = .ok w1) :
    w1.objects = w.objects ∧ w1.notifications = w.notifications := by
  unfold fire at h
  split at h
  · cases h
  · split at h
    · exact runClosure_frame _ _ _ h
    · cases h; exact ⟨rfl, rfl⟩

theorem cancel_frame (o : ObjectId) (w w1 : World) (h : cancel o w = .ok w1) :
    w1.objects = w.objects ∧ w1.notifications = w.notifications := by
  unfold cancel at h
  split at h
  · cases h
  · split at h <;> (cases h; exact ⟨rfl, rfl⟩)

/-- Apart from `show()` on the object itself, no step changes the title, the
options or the `_notification` field of an object, and the object stays. -/
theorem step_frame (a : Action) (o : ObjectId) (w w1 : World) (obj : NotificationObject)
    (ha : a ≠ Action.showNotification o) (hs : step a w = .ok w1) (hobj : w.objects[o]? = some obj) :
    ∃ obj1, w1.objects[o]? = some obj1 ∧ obj1.core = obj.core := by
  cases a <;> simp only [step] at hs
  case requestPermission cb => cases hs; exact ⟨obj, hobj, rfl⟩
  case createNotification i t b =>
    cases hs
    refine ⟨obj, ?_, rfl⟩
    have hlt : o < w.objects.length := by
      rcases List.getElem?_eq_some.mp hobj with ⟨hlt, _⟩
      exact hlt
    simp [createNotification, List.getElem?_append_left hlt, hobj]
  case setHandler o2 s f =>
    unfold setHandler at hs
    split at hs
    · cases hs
    · rename_i obj2 hobj2
      cases hs
      by_cases ho : o2 = o
      · subst ho
        rw [hobj] at hobj2
        cases hobj2
        have hlt : o2 < w.objects.length := by
          rcases List.getElem?_eq_some.mp hobj with ⟨hlt, _⟩
          exact hlt
        refine ⟨obj.setHandler s f, by simp [hlt], ?_⟩
        cases s <;> rfl
      · exact ⟨obj, by simp [List.getElem?_set_ne ho, hobj], rfl⟩
  case showNotification o2 =>
    have ho : o2 ≠ o := fun h => ha (by rw [h])
    unfold showNotification at hs
    split at hs
    · cases hs
    · cases hs
      exact ⟨obj, by simp [List.getElem?_set_ne ho, hobj], rfl⟩
  case cancel o2 => rw [(cancel_frame _ _ _ hs).1]; exact ⟨obj, hobj, rfl⟩
  case tick => rw [(tick_frame _ _ hs).1]; exact ⟨obj, hobj, rfl⟩
  case resolve => rw [(resolve_frame _ _ hs).1]; exact ⟨obj, hobj, rfl⟩
  case fire hd s => rw [(fire_frame _ _ _ _ hs).1]; exact ⟨obj, hobj, rfl⟩

/-- The frame property of `step_frame` along a sequence of steps. -/
theorem run_frame (as : List Action) (o : ObjectId) (w w1 : World) (obj : NotificationObject)
    (ha : ∀ a ∈ as, a ≠ Action.showNotification o) (hs : run as w = .ok w1)
    (hobj : w.objects[o]? = some obj) :
    ∃ obj1, w1.objects[o]? = some obj1 ∧ obj1.core = obj.core := by
  induction as generalizing w obj with
  | nil => cases hs; exact ⟨obj, hobj, rfl⟩
  | cons a rest ih =>
    simp only [run] at hs
    split at hs
    · rename_i w2 hstep
      obtain ⟨obj2, hobj2, hcore2⟩ :=
        step_frame a o w w2 obj (ha a (List.mem_cons_self _ _)) hstep hobj
      obtain ⟨obj1, hobj1, hcore1⟩ :=
        ih w2 obj2 (fun b hb => ha b (List.mem_cons_of_mem _ hb)) hs hobj2
      exact ⟨obj1, hobj1, hcore1.trans hcore2⟩
    · cases hs

/-- The object that `createNotification` returns is the last one of the heap. -/
theorem createNotification_object (iconUrl title body : String) (w : World) :
    (createNotification iconUrl title body w).2.objects[(createNotification iconUrl title body w).1]?
      = some { _title := title, _options := { body := body, icon := iconUrl },
               _notification := none, onclick := none, ondisplay := none,
               onerror := none, onclose := none } := by
  simp [createNotification]

/-- No step other than `show()` constructs a browser notification. -/
theorem step_notifications (a : Action) (w w1 : World)
    (ha : ∀ o, a ≠ Action.showNotification o) (hs : step a w = .ok w1) :
    w1.notifications = w.notifications := by
  cases a <;> simp only [step] at hs
  case requestPermission cb => cases hs; rfl
  case createNotification i t b => cases hs; rfl
  case setHandler o2 s f =>
    unfold setHandler at hs
    split at hs
    · cases hs
    · cases hs; rfl
  case showNotification o2 => exact absurd rfl (ha o2)
  case cancel o2 => exact (cancel_frame _ _ _ hs).2
  case tick => exact (tick_frame _ _ hs).2
  case resolve => exact (resolve_frame _ _ hs).2
  case fire hd s => exact (fire_frame _ _ _ _ hs).2

/-- No sequence of steps without `show()` constructs a browser notification. -/
theorem run_notifications (as : List Action) (w w1 : World)
    (ha : ∀ a ∈ as, ∀ o, a ≠ Action.showNotification o) (hs : run as w = .ok w1) :
    w1.notifications = w.notifications := by
  induction as generalizing w with
  | nil => cases hs; rfl
  | cons a rest ih =>
    simp only [run] at hs
    split at hs
    · rename_i w2 hstep
      rw [ih w2 (fun b hb => ha b (List.mem_cons_of_mem _ hb)) hs]
      exact step_notifications a w w2 (ha a (List.mem_cons_self _ _)) hstep
    · cases hs

/-! ## What the methods do to an object that exists -/

/-- Lines 92-114 on an object that exists. -/
theorem showNotification_spec (o : ObjectId) (w : World) (obj : NotificationObject)
    (hobj : w.objects[o]? = some obj) :
    ∃ w1, showNotification o w = .ok w1 ∧
      w1.objects[o]? = some { obj with _notification := some w.notifications.length } ∧
      w1.notifications = w.notifications ++ [realized o obj] ∧
      w1.trace = w.trace := by
  have hlt : o < w.objects.length := by
    rcases List.getElem?_eq_some.mp hobj with ⟨hlt, _⟩
    exact hlt
  refine ⟨{ w with
      notifications := w.notifications ++ [realized o obj],
      objects := w.objects.set o { obj with _notification := some w.notifications.length } },
    ?_, ?_, rfl, rfl⟩
  · simp [showNotification, hobj, realized]
  · simp [hlt]

/-- Lines 116-119 on an object that exists. -/
theorem cancel_spec (o : ObjectId) (w : World) (obj : NotificationObject)
    (hobj : w.objects[o]? = some obj) :
    cancel o w = .ok (match obj._notification with
      | some h => { w with trace := w.trace ++ [Event.hostClose h] }
      | none => w) := by
  cases hn : obj._notification <;> simp [cancel, hobj, hn]

/-- A signal on a notification whose handler field holds the forwarder of
lines 98-113 for the object `o`. -/
theorem fire_spec (h : HandleId) (s : Signal) (o : ObjectId) (w : World)
    (n : HostNotification) (obj : NotificationObject)
    (hn : w.notifications[h]? = some n) (hwired : n.handler s = some (forwarder s o))
    (hobj : w.objects[o]? = some obj) :
    fire h s w = .ok { w with trace := w.trace ++ calls (obj.handler s) } := by
  unfold fire
  rw [hn]
  simp only [hwired]
  cases s <;>
    simp [forwarder, runClosure, hobj, callIfSet_eq, NotificationObject.handler]

theorem realized_handler (o : ObjectId) (obj : NotificationObject) (s : Signal) :
    (realized o obj).handler s = some (forwarder s o) := by
  cases s <;> rfl

theorem setHandler_handler (obj : NotificationObject) (s t : Signal) (f : Option Callback) :
    (obj.setHandler t f).handler s = if t = s then f else obj.handler s := by
  cases s <;> cases t <;> rfl

theorem assigned_handler (l : List (Signal × Option Callback)) (obj : NotificationObject)
    (s : Signal) : (obj.assigned l).handler s = lastAssigned s (obj.handler s) l := by
  induction l generalizing obj with
  | nil => rfl
  | cons p rest ih =>
    simp only [NotificationObject.assigned, lastAssigned]
    rw [ih, setHandler_handler]

theorem assigned_core (l : List (Signal × Option Callback)) (obj : NotificationObject) :
    (obj.assigned l).core = obj.core := by
  induction l generalizing obj with
  | nil => rfl
  | cons p rest ih =>
    simp only [NotificationObject.assigned]
    rw [ih]
    cases p.1 <;> rfl

theorem lastAssigned_append (s : Signal) (initial : Option Callback)
    (l1 l2 : List (Signal × Option Callback)) :
    lastAssigned s initial (l1 ++ l2) = lastAssigned s (lastAssigned s initial l1) l2 := by
  induction l1 generalizing initial with
  | nil => rfl
  | cons p rest ih => exact ih _

/-- A list of handler assignments on an object that exists: only the handler
fields of that object change. -/
theorem run_assignments (o : ObjectId) (l : List (Signal × Option Callback)) (w : World)
    (obj : NotificationObject) (hobj : w.objects[o]? = some obj) :
    ∃ w1, run (assignments o l) w = .ok w1 ∧
      w1.objects[o]? = some (obj.assigned l) ∧
      w1.notifications = w.notifications ∧ w1.trace = w.trace := by
  induction l generalizing w obj with
  | nil => exact ⟨w, rfl, hobj, rfl, rfl⟩
  | cons p rest ih =>
    have hlt : o < w.objects.length := by
      rcases List.getElem?_eq_some.mp hobj with ⟨hlt, _⟩
      exact hlt
    obtain ⟨w1, h1, h2, h3, h4⟩ :=
      ih { w with objects := w.objects.set o (obj.setHandler p.1 p.2) }
        (obj.setHandler p.1 p.2) (by simp [hlt])
    refine ⟨w1, ?_, h2, h3, h4⟩
    simp only [assignments, List.map_cons, run, step, setHandler, hobj]
    exact h1

theorem liveHandle_of_object (o : ObjectId) (w : World) (obj : NotificationObject)
    (hobj : w.objects[o]? = some obj) : liveHandle o w = obj._notification := by
  simp [liveHandle, hobj]

/-- The object returned by `createNotification`, after steps that do not call
`show()` on it: it still exists, with its title, its options and no handle. -/
theorem created_frame (iconUrl title body : String) (w : World) (as : List Action) (w1 : World)
    (hno : ∀ a ∈ as, a ≠ Action.showNotification (createNotification iconUrl title body w).1)
    (hrun : run as (createNotification iconUrl title body w).2 = .ok w1) :
    ∃ obj1, w1.objects[(createNotification iconUrl title body w).1]? = some obj1 ∧
      obj1._title = title ∧ obj1._options = { body := body, icon := iconUrl } ∧
      obj1._notification = none := by
  obtain ⟨obj1, h1, h2⟩ :=
    run_frame as _ _ w1 _ hno hrun (createNotification_object iconUrl title body w)
  simp only [NotificationObject.core, Prod.mk.injEq] at h2
  exact ⟨obj1, h1, h2.1, h2.2.1, h2.2.2⟩

/-! ## createNotification, show and cancel -/

/-- C4: `createNotification(iconUrl, title, body)` constructs no browser
notification and calls nothing: the browser's notifications, the trace, the
timers and the pending requests are as before the call. The object it returns
has no live handle, and still has none after any steps that do not call
`show()` on it; if those steps call `show()` on no object at all, the
browser's notifications are still as before the call. -/
theorem createNotification_constructs_nothing (iconUrl title body : String) (w : World)
    (as : List Action) (w1 : World)
    (hno : ∀ a ∈ as, a ≠ Action.showNotification (createNotification iconUrl title body w).1)
    (hrun : run as (createNotification iconUrl title body w).2 = .ok w1) :
    (createNotification iconUrl title body w).2.notifications = w.notifications ∧
    (createNotification iconUrl title body w).2.trace = w.trace ∧
    (createNotification iconUrl title body w).2.timers = w.timers ∧
    (createNotification iconUrl title body w).2.pending = w.pending ∧
    (createNotification iconUrl title body w).2.permission = w.permission ∧
    liveHandle (createNotification iconUrl title body w).1
      (createNotification iconUrl title body w).2 = none ∧
    liveHandle (createNotification iconUrl title body w).1 w1 = none ∧
    ((∀ a ∈ as, ∀ o, a ≠ Action.showNotification o) →
      w1.notifications = w.notifications) := by
  refine ⟨rfl, rfl, rfl, rfl, rfl, ?_, ?_, ?_⟩
  · rw [liveHandle_of_object _ _ _ (createNotification_object iconUrl title body w)]
  · obtain ⟨obj1, h1, _, _, h4⟩ := created_frame iconUrl title body w as w1 hno hrun
    rw [liveHandle_of_object _ _ _ h1, h4]
  · intro hnone
    have hn := run_notifications as _ w1 hnone hrun
    exact hn

/-- Witness for C4: an object is created on a fresh page, the caller assigns
`onclick` and calls `cancel()`, and a permission request runs meanwhile. -/
theorem createNotification_constructs_nothing_witness :
    ∃ w1, run [Action.setHandler 0 Signal.click (some 7), Action.cancel 0,
               Action.requestPermission none, Action.tick, Action.resolve]
            (createNotification "icon.png" "Hi" "there" (World.init "granted")).2 = .ok w1 ∧
      liveHandle 0 w1 = none ∧ w1.notifications = [] :=
  ⟨_, rfl,
    (createNotification_constructs_nothing "icon.png" "Hi" "there" (World.init "granted")
      [Action.setHandler 0 Signal.click (some 7), Action.cancel 0,
       Action.requestPermission none, Action.tick, Action.resolve] _
      (by decide) rfl).2.2.2.2.2.2.1,
    (createNotification_constructs_nothing "icon.png" "Hi" "there" (World.init "granted")
      [Action.setHandler 0 Signal.click (some 7), Action.cancel 0,
       Action.requestPermission none, Action.tick, Action.resolve] _
      (by decide) rfl).2.2.2.2.2.2.2 (by simp)⟩

/-- C5: one call to `show()` on the object returned by
`createNotification(iconUrl, title, body)`, at any moment before which `show()`
was not called on it, constructs exactly one browser notification; its title
is `title`, its `options.body` is `body`, its `options.icon` is `iconUrl`, and
it becomes the live handle of the object. Nothing is called. -/
theorem show_realizes_one (iconUrl title body : String) (w : World)
    (as : List Action) (w1 : World)
    (hno : ∀ a ∈ as, a ≠ Action.showNotification (createNotification iconUrl title body w).1)
    (hrun : run as (createNotification iconUrl title body w).2 = .ok w1) :
    ∃ w2 n, showNotification (createNotification iconUrl title body w).1 w1 = .ok w2 ∧
      w2.notifications = w1.notifications ++ [n] ∧
      n.title = title ∧ n.options.body = body ∧ n.options.icon = iconUrl ∧
      n = realized w.objects.length
        { _title := title, _options := { body := body, icon := iconUrl },
          _notification := none, onclick := none, ondisplay := none,
          onerror := none, onclose := none } ∧
      w2.notifications[w1.notifications.length]? = some n ∧
      liveHandle (createNotification iconUrl title body w).1 w2
        = some w1.notifications.length ∧
      w2.trace = w1.trace := by
  obtain ⟨obj1, h1, ht, ho, _⟩ := created_frame iconUrl title body w as w1 hno hrun
  obtain ⟨w2, hs, hobj2, hn2, htr⟩ := showNotification_spec _ w1 obj1 h1
  have hreal : realized (createNotification iconUrl title body w).1 obj1
      = realized w.objects.length
        { _title := title, _options := { body := body, icon := iconUrl },
          _notification := none, onclick := none, ondisplay := none,
          onerror := none, onclose := none } := by
    simp [realized, ht, ho, createNotification]
  refine ⟨w2, _, hs, hn2, ?_, ?_, ?_, hreal, ?_, ?_, htr⟩
  · simp [realized, ht]
  · simp [realized, ho]
  · simp [realized, ho]
  · rw [hn2]; exact List.getElem?_concat_length _ _
  · rw [liveHandle_of_object _ _ _ hobj2]

/-- Witness for C5: `createNotification("icon.png", "Hi", "there").show()` on a
fresh page with permission "granted". -/
theorem show_realizes_one_witness :
    ∃ w2, run [Action.createNotification "icon.png" "Hi" "there", Action.showNotification 0]
            (World.init "granted") = .ok w2 ∧
      w2.notifications =
        [{ title := "Hi", options := { body := "there", icon := "icon.png" },
           onclick := some (Closure.forwardClick 0), onshow := some (Closure.forwardShow 0),
           onerror := some (Closure.forwardError 0),
           onclose := some (Closure.forwardClose 0) }] ∧
      liveHandle 0 w2 = some 0 :=
  match show_realizes_one "icon.png" "Hi" "there" (World.init "granted") [] _
      (by decide) rfl with
  | ⟨w2, _, h1, h2, _, _, _, h6, _, h8, _⟩ =>
    ⟨w2, h1, by rw [h2, h6]; rfl, h8⟩

/-- C6: the caller assigns handler fields (`before`), calls `show()`, and
assigns handler fields again (`after`). When the browser then signals `s` on
the live handle, the only thing that happens is `if (f) f();` for the value
`f` that the field of `s` holds at that moment (`onclick` for click,
`ondisplay` for show, `onerror` for error, `onclose` for close): the value
assigned last, before or after `show()`. A handler is called once with no
arguments and nothing else is called; an unset field gives no call and no
exception. Until the signal nothing is called. -/
theorem forwarders_dispatch (o : ObjectId) (w : World) (obj : NotificationObject)
    (hobj : w.objects[o]? = some obj)
    (before after : List (Signal × Option Callback)) (s : Signal) :
    ∃ w1 w2 w3 obj3,
      run (assignments o before) w = .ok w1 ∧
      showNotification o w1 = .ok w2 ∧
      run (assignments o after) w2 = .ok w3 ∧
      liveHandle o w3 = some w.notifications.length ∧
      w3.trace = w.trace ∧
      w3.objects[o]? = some obj3 ∧
      obj3.handler s = lastAssigned s (obj.handler s) (before ++ after) ∧
      fire w.notifications.length s w3
        = .ok { w3 with trace := w3.trace ++ calls (obj3.handler s) } ∧
      calls none = [] ∧ ∀ f, calls (some f) = [Event.called f []] := by
  obtain ⟨w1, hr1, ho1, hn1, ht1⟩ := run_assignments o before w obj hobj
  obtain ⟨w2, hs2, ho2, hn2, ht2⟩ := showNotification_spec o w1 _ ho1
  obtain ⟨w3, hr3, ho3, hn3, ht3⟩ := run_assignments o after w2 _ ho2
  refine ⟨w1, w2, w3, _, hr1, hs2, hr3, ?_, ?_, ho3, ?_, ?_, rfl, fun _ => rfl⟩
  · rw [liveHandle_of_object _ _ _ ho3]
    have hc := assigned_core after
      { obj.assigned before with _notification := some w1.notifications.length }
    simp only [NotificationObject.core, Prod.mk.injEq] at hc
    rw [hc.2.2, hn1]
  · rw [ht3, ht2, ht1]
  · rw [assigned_handler, lastAssigned_append, ← assigned_handler before obj s]
    cases s <;> rfl
  · apply fire_spec _ s o w3 (realized o (obj.assigned before)) _ ?_
      (realized_handler _ _ _) ho3
    rw [hn3, hn2, hn1]
    exact List.getElem?_concat_length _ _

/-- Witness for C6: `onclick` is assigned before `show()` and replaced after
it, `onclose` is never assigned; a click calls the replacement only. -/
theorem forwarders_dispatch_witness :
    ∃ w3,
      run [Action.createNotification "icon.png" "Hi" "there",
           Action.setHandler 0 Signal.click (some 7), Action.showNotification 0,
           Action.setHandler 0 Signal.click (some 8)] (World.init "granted") = .ok w3 ∧
      w3.trace = [] ∧
      fire 0 Signal.click w3 = .ok { w3 with trace := [Event.called 8 []] } :=
  match forwarders_dispatch 0 (createNotification "icon.png" "Hi" "there" (World.init "granted")).2
      _ (createNotification_object "icon.png" "Hi" "there" (World.init "granted"))
      [(Signal.click, some 7)] [(Signal.click, some 8)] Signal.click with
  | ⟨w1, w2, w3, obj3, h1, h2, h3, _, h5, _, h7, h8, _, _⟩ =>
    ⟨w3,
      by
        have e1 : w1 = _ := Except.ok.inj (h1.symm.trans rfl)
        subst e1
        have e2 : w2 = _ := Except.ok.inj (h2.symm.trans rfl)
        subst e2
        exact h3,
      h5,
      by rw [h7, h5] at h8; exact h8⟩

/-- C7, evaluated where the claim fails: with host permission "denied" (and
likewise "default") `checkPermission()` does not report `PERMISSION_ALLOWED`,
and `createNotification` still returns an object instead of throwing. -/
theorem createNotification_ignores_permission :
    checkPermission "denied" = .ok PERMISSION_DENIED ∧
    step (Action.createNotification "icon.png" "Hi" "there") (World.init "denied")
      = .ok { World.init "denied" with
          objects := [{ _title := "Hi", _options := { body := "there", icon := "icon.png" },
                        _notification := none, onclick := none, ondisplay := none,
                        onerror := none, onclose := none }] } ∧
    (createNotification "icon.png" "Hi" "there" (World.init "denied")).1 = 0 ∧
    checkPermission "default" = .ok PERMISSION_NOT_ALLOWED ∧
    step (Action.createNotification "icon.png" "Hi" "there") (World.init "default")
      = .ok { World.init "default" with
          objects := [{ _title := "Hi", _options := { body := "there", icon := "icon.png" },
                        _notification := none, onclick := none, ondisplay := none,
                        onerror := none, onclose := none }] } :=
  ⟨rfl, rfl, rfl, rfl, rfl⟩

/-- C8: on an object returned by `createNotification` on which `show()` has
never been called, whatever else has happened since, `cancel()` returns
without an exception and leaves everything as it is: the object, the
browser's notifications and the trace, so no `close()` is requested. -/
theorem cancel_before_show_noop (iconUrl title body : String) (w : World)
    (as : List Action) (w1 : World)
    (hno : ∀ a ∈ as, a ≠ Action.showNotification (createNotification iconUrl title body w).1)
    (hrun : run as (createNotification iconUrl title body w).2 = .ok w1) :
    cancel (createNotification iconUrl title body w).1 w1 = .ok w1 := by
  obtain ⟨obj1, h1, _, _, h4⟩ := created_frame iconUrl title body w as w1 hno hrun
  rw [cancel_spec _ _ _ h1, h4]

/-- Witness for C8: `cancel()` right after `createNotification` and an
assignment of `onclose`, while another object is being shown. -/
theorem cancel_before_show_noop_witness :
    ∃ w1,
      run [Action.createNotification "b.png" "Other" "one", Action.showNotification 0,
           Action.setHandler 1 Signal.close (some 3)]
        (createNotification "icon.png" "Hi" "there"
          (createNotification "a.png" "First" "object" (World.init "granted")).2).2 = .ok w1 ∧
      cancel 1 w1 = .ok w1 :=
  ⟨_, rfl,
    cancel_before_show_noop "icon.png" "Hi" "there"
      (createNotification "a.png" "First" "object" (World.init "granted")).2
      [Action.createNotification "b.png" "Other" "one", Action.showNotification 0,
       Action.setHandler 1 Signal.close (some 3)] _ (by decide) rfl⟩

/-- C9: two calls of `show()` on the same object construct two browser
notifications, at two different handles; no `close()` is requested for the
first when the second is constructed (nothing at all is called); the
object's live handle is the second; a following `cancel()` requests `close()`
once, on the second, and not on the first. -/
theorem show_twice_then_cancel (o : ObjectId) (w : World) (obj : NotificationObject)
    (hobj : w.objects[o]? = some obj) :
    ∃ w1 w2 w3,
      showNotification o w = .ok w1 ∧
      showNotification o w1 = .ok w2 ∧
      cancel o w2 = .ok w3 ∧
      w2.notifications = w.notifications ++ [realized o obj, realized o obj] ∧
      liveHandle o w1 = some w.notifications.length ∧
      liveHandle o w2 = some (w.notifications.length + 1) ∧
      liveHandle o w1 ≠ liveHandle o w2 ∧
      w2.trace = w.trace ∧
      w3 = { w2 with trace := w2.trace ++ [Event.hostClose (w.notifications.length + 1)] } ∧
      closeRequests (w.notifications.length + 1) w3
        = closeRequests (w.notifications.length + 1) w + 1 ∧
      closeRequests w.notifications.length w3 = closeRequests w.notifications.length w := by
  obtain ⟨w1, hs1, ho1, hn1, ht1⟩ := showNotification_spec o w obj hobj
  obtain ⟨w2, hs2, ho2, hn2, ht2⟩ := showNotification_spec o w1 _ ho1
  have hl1 : liveHandle o w1 = some w.notifications.length :=
    liveHandle_of_object _ _ _ ho1
  have hl2 : liveHandle o w2 = some (w.notifications.length + 1) := by
    rw [liveHandle_of_object _ _ _ ho2, hn1]
    simp
  have htr : w2.trace = w.trace := by rw [ht2, ht1]
  refine ⟨w1, w2, _, hs1, hs2, cancel_spec o w2 _ ho2, ?_, hl1, hl2, ?_, htr, ?_, ?_, ?_⟩
  · rw [hn2, hn1]
    simp [realized]
  · rw [hl1, hl2]
    simp
  · simp [hn1]
  · simp [hn1, closeRequests, htr, List.count_append]
  · simp [hn1, closeRequests, htr, List.count_append]

/-- Witness for C9 on a fresh page. -/
theorem show_twice_then_cancel_witness :
    ∃ w3,
      run [Action.createNotification "icon.png" "Hi" "there", Action.showNotification 0,
           Action.showNotification 0, Action.cancel 0] (World.init "granted") = .ok w3 ∧
      w3.notifications.length = 2 ∧ liveHandle 0 w3 = some 1 ∧
      w3.trace = [Event.hostClose 1] :=
  match show_twice_then_cancel 0
      (createNotification "icon.png" "Hi" "there" (World.init "granted")).2 _
      (createNotification_object "icon.png" "Hi" "there" (World.init "granted")) with
  | ⟨w1, w2, w3, h1, h2, h3, h4, _, h6, _, h8, h9, _, _⟩ =>
    ⟨w3,
      by
        have e1 : w1 = _ := Except.ok.inj (h1.symm.trans rfl)
        subst e1
        have e2 : w2 = _ := Except.ok.inj (h2.symm.trans rfl)
        subst e2
        exact h3,
      by rw [h9, h4]; rfl,
      by rw [h9]; exact h6,
      by rw [h9, h8]; rfl⟩

theorem object_of_liveHandle (o : ObjectId) (w : World) (h : HandleId)
    (hl : liveHandle o w = some h) :
    ∃ obj, w.objects[o]? = some obj ∧ obj._notification = some h := by
  unfold liveHandle at hl
  split at hl
  · rename_i obj hobj
    exact ⟨obj, hobj, hl⟩
  · cases hl

/-- No step unsets the `_notification` field of an object: `show()` on the
object replaces its value and every other step leaves it as it is. -/
theorem step_keeps_handle (a : Action) (o : ObjectId) (w w1 : World) (h : HandleId)
    (hs : step a w = .ok w1) (hl : liveHandle o w = some h) :
    ∃ h1, liveHandle o w1 = some h1 ∧ (a ≠ Action.showNotification o → h1 = h) := by
  obtain ⟨obj, hobj, hn⟩ := object_of_liveHandle o w h hl
  by_cases ha : a = Action.showNotification o
  · subst ha
    obtain ⟨w2, hs2, ho2, _, _⟩ := showNotification_spec o w obj hobj
    have e : w1 = w2 := Except.ok.inj (hs.symm.trans hs2)
    subst e
    exact ⟨w.notifications.length, liveHandle_of_object _ _ _ ho2, fun hne => absurd rfl hne⟩
  · obtain ⟨obj1, hobj1, hcore⟩ := step_frame a o w w1 obj ha hs hobj
    simp only [NotificationObject.core, Prod.mk.injEq] at hcore
    refine ⟨h, ?_, fun _ => rfl⟩
    rw [liveHandle_of_object _ _ _ hobj1, hcore.2.2, hn]

/-- No sequence of steps unsets the `_notification` field of an object, and
without `show()` on the object its value stays the same. -/
theorem run_keeps_handle (as : List Action) (o : ObjectId) (w w1 : World) (h : HandleId)
    (hs : run as w = .ok w1) (hl : liveHandle o w = some h) :
    ∃ h1, liveHandle o w1 = some h1 ∧
      ((∀ a ∈ as, a ≠ Action.showNotification o) → h1 = h) := by
  induction as generalizing w h with
  | nil => cases hs; exact ⟨h, hl, fun _ => rfl⟩
  | cons a rest ih =>
    simp only [run] at hs
    split at hs
    · rename_i w2 hstep
      obtain ⟨h2, hl2, he2⟩ := step_keeps_handle a o w w2 h hstep hl
      obtain ⟨h1, hl1, he1⟩ := ih w2 h2 hs hl2
      refine ⟨h1, hl1, fun hno => ?_⟩
      rw [he1 (fun b hb => hno b (List.mem_cons_of_mem _ hb)),
        he2 (hno a (List.mem_cons_self _ _))]
    · cases hs

/-- C10, as stated, fails: after `show()` and `cancel()` the object still holds
its live handle and a second `cancel()` requests `close()` a second time; after
`show()` and the browser's close signal the object still holds its live
handle and `cancel()` requests `close()`. -/
theorem handle_cleared_counterexample :
    (run [Action.createNotification "icon.png" "Hi" "there", Action.showNotification 0,
          Action.cancel 0] (World.init "granted")).map (liveHandle 0) = .ok (some 0) ∧
    (run [Action.createNotification "icon.png" "Hi" "there", Action.showNotification 0,
          Action.cancel 0] (World.init "granted")).map (closeRequests 0) = .ok 1 ∧
    (run [Action.createNotification "icon.png" "Hi" "there", Action.showNotification 0,
          Action.cancel 0, Action.cancel 0] (World.init "granted")).map (closeRequests 0)
      = .ok 2 ∧
    (run [Action.createNotification "icon.png" "Hi" "there", Action.showNotification 0,
          Action.fire 0 Signal.close] (World.init "granted")).map (liveHandle 0)
      = .ok (some 0) ∧
    (run [Action.createNotification "icon.png" "Hi" "there", Action.showNotification 0,
          Action.fire 0 Signal.close] (World.init "granted")).map (closeRequests 0) = .ok 0 ∧
    (run [Action.createNotification "icon.png" "Hi" "there", Action.showNotification 0,
          Action.fire 0 Signal.close, Action.cancel 0] (World.init "granted")).map
        (closeRequests 0) = .ok 1 :=
  ⟨rfl, rfl, rfl, rfl, rfl, rfl⟩

/-- C10, amended: the script never clears an object's live handle. Once
`_notification` of an object is set, it is set after any sequence of steps
(`cancel()`, signals of the browser including close, handler assignments,
timers, permission requests, steps on other objects), and it holds the same
handle unless `show()` was called on the object again. In particular, after
`show()`, `cancel()` requests `close()` on the live handle and changes nothing
else, so the object keeps the handle and a second `cancel()` requests
`close()` on it once more; the browser's close signal only runs
`if (onclose) onclose();`, so the object keeps the handle and a following
`cancel()` requests `close()` on it. -/
theorem cancel_keeps_handle (o : ObjectId) (w : World) (obj : NotificationObject)
    (hobj : w.objects[o]? = some obj) :
    (∀ (o2 : ObjectId) (as : List Action) (v v1 : World) (h : HandleId),
      liveHandle o2 v = some h → run as v = .ok v1 →
      ∃ h1, liveHandle o2 v1 = some h1 ∧
        ((∀ a ∈ as, a ≠ Action.showNotification o2) → h1 = h)) ∧
    ∃ w1 w2 w3 w4 w5,
      showNotification o w = .ok w1 ∧
      liveHandle o w1 = some w.notifications.length ∧
      cancel o w1 = .ok w2 ∧
      w2 = { w1 with trace := w1.trace ++ [Event.hostClose w.notifications.length] } ∧
      liveHandle o w2 = some w.notifications.length ∧
      cancel o w2 = .ok w3 ∧
      w3 = { w1 with trace := w1.trace ++ [Event.hostClose w.notifications.length,
                                            Event.hostClose w.notifications.length] } ∧
      closeRequests w.notifications.length w3 = closeRequests w.notifications.length w1 + 2 ∧
      fire w.notifications.length Signal.close w1 = .ok w4 ∧
      w4 = { w1 with trace := w1.trace ++ calls obj.onclose } ∧
      liveHandle o w4 = some w.notifications.length ∧
      cancel o w4 = .ok w5 ∧
      w5 = { w4 with trace := w4.trace ++ [Event.hostClose w.notifications.length] } ∧
      closeRequests w.notifications.length w5
        = closeRequests w.notifications.length w1 + 1 := by
  refine ⟨fun o2 as v v1 h hl hrun => run_keeps_handle as o2 v v1 h hrun hl, ?_⟩
  obtain ⟨w1, hs1, ho1, hn1, ht1⟩ := showNotification_spec o w obj hobj
  have hl1 : liveHandle o w1 = some w.notifications.length :=
    liveHandle_of_object _ _ _ ho1
  have hf := fire_spec w.notifications.length Signal.close o w1 (realized o obj) _
    (by rw [hn1]; exact List.getElem?_concat_length _ _) (realized_handler _ _ _) ho1
  refine ⟨w1, _, _, _, _, hs1, hl1, cancel_spec o w1 _ ho1, rfl, ?_,
    cancel_spec o _ _ (by exact ho1), ?_, ?_, hf, rfl, ?_, cancel_spec o _ _ (by exact ho1),
    rfl, ?_⟩
  · exact hl1
  · simp
  · simp [closeRequests, List.count_append]
  · exact hl1
  · cases hc : obj.onclose <;>
      simp [closeRequests, List.count_append, calls, NotificationObject.handler, hc]

/-- Witness for the amended C10 on a fresh page: two calls of `cancel()` after
`show()`, and the handle after `cancel()`, a close signal, a click signal, a
handler assignment and a permission request. -/
theorem cancel_keeps_handle_witness :
    (∃ w3,
      run [Action.createNotification "icon.png" "Hi" "there", Action.showNotification 0,
           Action.cancel 0, Action.cancel 0] (World.init "granted") = .ok w3 ∧
      w3.trace = [Event.hostClose 0, Event.hostClose 0]) ∧
    ∃ v1,
      run [Action.createNotification "icon.png" "Hi" "there", Action.showNotification 0,
           Action.cancel 0, Action.fire 0 Signal.close, Action.fire 0 Signal.click,
           Action.setHandler 0 Signal.close (some 3), Action.requestPermission none,
           Action.tick, Action.resolve] (World.init "granted") = .ok v1 ∧
      liveHandle 0 v1 = some 0 :=
  match cancel_keeps_handle 0
      (createNotification "icon.png" "Hi" "there" (World.init "granted")).2 _
      (createNotification_object "icon.png" "Hi" "there" (World.init "granted")) with
  | ⟨hframe, w1, w2, w3, _, _, h1, hl1, h3, h4, _, h6, h7, _, _, _, _, _, _, _⟩ =>
    ⟨⟨w3,
      by
        have e1 : w1 = _ := Except.ok.inj (h1.symm.trans rfl)
        subst e1
        subst h4
        exact h6,
      by
        have e1 : w1 = _ := Except.ok.inj (h1.symm.trans rfl)
        subst e1
        rw [h7]; rfl⟩,
     by
       have e1 : w1 = _ := Except.ok.inj (h1.symm.trans rfl)
       subst e1
       obtain ⟨k, hk, hsame⟩ := hframe 0
         [Action.cancel 0, Action.fire 0 Signal.close, Action.fire 0 Signal.click,
          Action.setHandler 0 Signal.close (some 3), Action.requestPermission none,
          Action.tick, Action.resolve] _ _ 0 hl1 rfl
       exact ⟨_, rfl, by rw [hk, hsame (by decide)]⟩⟩

end WebkitNotifications
